import Mathlib

/-!
Verification of the iron-blogger2 core (`ironblogger/model.py`) against its
natural-language specification.

Shallow embedding conventions:
* Timestamps are integers counting days since a fixed epoch; the round length
  is one week (`ROUND_LEN = 7`).
* Database rows become Lean structures; the SQLAlchemy session becomes an
  explicit `Store` value (lists of rows).  Row identity is list position.
* Python exceptions (`MalformedPostError`) become `Except String`.
* `ironblogger/date.py` is not part of the sources given, so `duedate`,
  `ROUND_LEN` and `divide_timedelta` are modelled from the spec (see their
  doc comments).
-/

/-- Modelled from the spec: the round length, one calendar week (in days);
`ironblogger.date.ROUND_LEN` is not among the given sources. -/
def ROUND_LEN : Int := 7

/-- Modelled from the spec: `duedate(t)` deterministically maps any timestamp
to the boundary instant of the round containing it (pure function of a fixed
epoch and the round length); `ironblogger.date.duedate` is not among the given
sources.  With days as the time unit and rounds `[7k, 7k+6]`, the boundary
instant of the round containing `t` is the last day of that week. -/
def duedate (t : Int) : Int :=
  t + (ROUND_LEN - 1 - Int.emod t ROUND_LEN)

/-- Modelled from the spec: `divide(intervalDuration)` returns the number of
whole round-lengths in a duration, rounded up (ceiling);
`ironblogger.date.divide_timedelta` is not among the given sources. -/
def divide_timedelta (a b : Int) : Int :=
  (a + b - 1) / b

/-- `DEBT_PER_POST` constant from `ironblogger/model.py`. -/
def DEBT_PER_POST : Int := 500

/-- `LATE_PENALTY` constant from `ironblogger/model.py`. -/
def LATE_PENALTY : Int := 100

/-- Row of the `blogger` table (`class Blogger`): an Iron Blogger
participant. -/
structure Blogger where
  id : Nat
  name : String
  start_date : Int
deriving DecidableEq

/-- Row of the `blog` table (`class Blog`), minus the relationship
attributes (resolved through the store) and the methods. -/
structure Blog where
  id : Nat
  blogger_id : Nat
  title : String
  page_url : String
  feed_url : String
  etag : Option String
  modified : Option String
deriving DecidableEq

/-- Row of the `post` table (`class Post`).  `blog_id` is 0 while the post is
not yet attached to a blog (Python leaves the `blog` field unset until
`sync_posts` does `post.blog = self`). -/
structure Post where
  blog_id : Nat
  timestamp : Int
  counts_for : Option Int
  title : String
  summary : String
  page_url : String
deriving DecidableEq

/-- The database session: the rows visible to the queries issued by
`model.py`. -/
structure Store where
  posts : List Post
  blogs : List Blog
  bloggers : List Blogger
deriving DecidableEq

/-- Resolve a `blog_id` foreign key (the `post.blog` relationship). -/
def findBlog (blogs : List Blog) (bid : Nat) : Option Blog :=
  blogs.find? (fun b => b.id == bid)

/-- Resolve a `blogger_id` foreign key (the `blog.blogger` relationship). -/
def findBlogger (bloggers : List Blogger) (bid : Nat) : Option Blogger :=
  bloggers.find? (fun b => b.id == bid)

/-- The join condition `Post.blog_id == Blog.id, Blog.blogger_id == <id>`
used by the query in `Post.assign_round`: does `p` belong (through some blog
row) to the blogger with id `bloggerId`? -/
def ownedBy (blogs : List Blog) (p : Post) (bloggerId : Nat) : Bool :=
  blogs.any (fun b => b.id == p.blog_id && b.blogger_id == bloggerId)

/-- The query in `Post.assign_round` (lines 265-273 of `model.py`): the
`counts_for` dates, within `[lo, hi]`, of posts belonging to the given
blogger.  The source collects them into a set; only membership matters. -/
def claimed_dates (posts : List Post) (blogs : List Blog) (bloggerId : Nat)
    (lo hi : Int) : List Int :=
  posts.filterMap (fun p =>
    match p.counts_for with
    | some d =>
        if lo ≤ d ∧ d ≤ hi ∧ ownedBy blogs p bloggerId = true then some d
        else none
    | none => none)

/-- All assigned rounds (`counts_for` dates) of a blogger's posts, across all
of that blogger's blogs — the unwindowed version of `claimed_dates`. -/
def assignedRounds (posts : List Post) (blogs : List Blog) (bloggerId : Nat) :
    List Int :=
  posts.filterMap (fun p =>
    if ownedBy blogs p bloggerId = true then p.counts_for else none)

/-- The `while round >= oldest_valid_duedate` loop of `Post.assign_round`:
returns the first unclaimed round stepping backward one round length at a
time, or `none` when the window is exhausted. -/
def assignLoop (dates : List Int) (oldest round : Int) : Option Int :=
  if h : oldest ≤ round then
    if round ∈ dates then assignLoop dates oldest (round - ROUND_LEN)
    else some round
  else none
termination_by (round + 1 - oldest).toNat
decreasing_by
  simp_wf
  simp only [ROUND_LEN]
  omega

/-- The descending sequence of candidate rounds the loop visits:
`round, round - ROUND_LEN, ...` down to `oldest`. -/
def roundsFrom (oldest round : Int) : List Int :=
  if h : oldest ≤ round then round :: roundsFrom oldest (round - ROUND_LEN)
  else []
termination_by (round + 1 - oldest).toNat
decreasing_by
  simp_wf
  simp only [ROUND_LEN]
  omega

/-- `Post.assign_round` (lines 260-281 of `model.py`).  Pure version: returns
the post with `counts_for` set to the claimed round, or unchanged when every
round in the window is taken (the source leaves `self.counts_for` untouched
then). -/
def assign_round (store : Store) (post : Post) : Post :=
  match findBlog store.blogs post.blog_id with
  | none => post
  | some blog =>
    match findBlogger store.bloggers blog.blogger_id with
    | none => post
    | some blogger =>
      let natural := duedate post.timestamp
      let oldest := max
        (natural - ROUND_LEN * (DEBT_PER_POST / LATE_PENALTY))
        (duedate blogger.start_date)
      let dates := claimed_dates store.posts store.blogs blogger.id
        oldest natural
      match assignLoop dates oldest natural with
      | some r => { post with counts_for := some r }
      | none => post

/-- `Post.rounds_late` (lines 283-294 of `model.py`). -/
def rounds_late (post : Post) : Option Int :=
  match post.counts_for with
  | none => none
  | some cf => some (divide_timedelta (duedate post.timestamp - cf) ROUND_LEN)

/-- A raw feed entry as returned by `feedparser.parse`.  Each field is
`none` when the attribute is missing (or, for the `*_parsed` timestamps,
present but `None`).  The `struct_time`-to-`datetime` conversion is abstracted
into the integer timestamp. -/
structure FeedEntry where
  title : Option String
  summary : Option String
  link : Option String
  published : Option Int
  created : Option Int
  updated : Option Int
deriving DecidableEq

/-- The parsed result of `feedparser.parse(...)`: the HTTP status when one
was reported, the entries, and the new caching validators when present. -/
structure FetchedFeed where
  status : Option Nat
  entries : List FeedEntry
  etag : Option String
  modified : Option String
deriving DecidableEq

/-- `Post._get_pub_date` (lines 183-198 of `model.py`): first of the
`published`, `created`, `updated` parsed timestamps, else a
`MalformedPostError`, here rendered as `none`. -/
def get_pub_date (entry : FeedEntry) : Option Int :=
  match entry.published with
  | some t => some t
  | none =>
    match entry.created with
    | some t => some t
    | none => entry.updated

/-- `Post.from_feed_entry` (lines 200-255 of `model.py`).  Raising
`MalformedPostError` becomes `Except.error`; the source's error messages
carry a `%r` dump of the entry which is dropped here.  The HTML sanitization
of the summary (external `feedparser._sanitizeHTML` / `jinja2` code) is a
string-to-string transformation no claim mentions, so the summary is carried
through verbatim. -/
def Post.from_feed_entry (entry : FeedEntry) : Except String Post :=
  match entry.title with
  | none => Except.error "Post has no title"
  | some t =>
    match entry.summary with
    | none => Except.error "Post has no summary"
    | some s =>
      match entry.link with
      | none => Except.error "Post has no link"
      | some l =>
        match get_pub_date entry with
        | none => Except.error "No valid publication date in post"
        | some ts =>
          Except.ok
            { blog_id := 0, timestamp := ts, counts_for := none,
              title := t, summary := s, page_url := l }

/-- `map(Post.from_feed_entry, feed.entries)` at line 116 of `model.py`:
Python 2's `map` is eager, so the first `MalformedPostError` raised by any
entry propagates out of `sync_posts`. -/
def mapMalformed : List FeedEntry → Except String (List Post)
  | [] => Except.ok []
  | e :: es =>
    match Post.from_feed_entry e with
    | Except.error msg => Except.error msg
    | Except.ok p =>
      match mapMalformed es with
      | Except.error msg => Except.error msg
      | Except.ok ps => Except.ok (p :: ps)

/-- Insert a post into a list sorted by ascending timestamp.  Together with
`sortAsc` this realizes `sorted([(post.timestamp, post) ...])`: Python sorts
the pairs by timestamp, comparing the `Post` objects themselves only on
timestamp ties, where the outcome is arbitrary (Python 2 object comparison);
this embedding fixes one realizable tie order. -/
def insertAsc (p : Post) : List Post → List Post
  | [] => [p]
  | q :: qs =>
    if p.timestamp < q.timestamp then p :: q :: qs else q :: insertAsc p qs

/-- Sorting step of `Blog.sync_posts` (line 120 of `model.py`), ascending by
timestamp; the source then reverses the result. -/
def sortAsc : List Post → List Post
  | [] => []
  | p :: ps => insertAsc p (sortAsc ps)

/-- The query at lines 105-107 of `model.py`:
`query(Post).filter_by(blog=self).order_by(Post.timestamp.desc()).first()`.
On timestamp ties SQL returns an arbitrary row; this embedding keeps the
first listed maximal-timestamp post. -/
def latest_post (posts : List Post) (blogId : Nat) : Option Post :=
  (posts.filter (fun p => p.blog_id == blogId)).foldl
    (fun acc p =>
      match acc with
      | none => some p
      | some q => if q.timestamp < p.timestamp then some p else some q)
    none

/-- The `for post in feed_posts` loop of `Blog.sync_posts` (lines 124-140):
scan the newest-first candidate list, stopping (`break`) at the first
candidate strictly older than the last known post, or with equal timestamp
and equal title; every candidate scanned before that is kept.  With no last
known post no check is made and every candidate is kept. -/
def scanNew (lastPost : Option Post) : List Post → List Post
  | [] => []
  | p :: ps =>
    match lastPost with
    | none => p :: scanNew lastPost ps
    | some lp =>
      if p.timestamp < lp.timestamp then []
      else if p.timestamp = lp.timestamp ∧ p.title = lp.title then []
      else p :: scanNew lastPost ps

/-- The posts added by one `Blog.sync_posts` run, in insertion order, plus
the caching metadata written back by `Blog._update_caching_info`. -/
structure SyncResult where
  added : List Post
  etag : Option String
  modified : Option String
deriving DecidableEq

/-- `Blog.sync_posts` (lines 101-142 of `model.py`) for an already fetched
feed.  The HTTP 304 check at line 111 only logs and does not alter control
flow, so it has no counterpart here; on a 304 response `feedparser` reports
no entries.  A `MalformedPostError` raised while mapping the entries
propagates (nothing is added, caching info is not updated). -/
def sync_posts (store : Store) (blog : Blog) (feed : FetchedFeed) :
    Except String SyncResult :=
  let lastPost := latest_post store.posts blog.id
  match mapMalformed feed.entries with
  | Except.error msg => Except.error msg
  | Except.ok cands =>
    let sortedDesc := (sortAsc cands).reverse
    let added := (scanNew lastPost sortedDesc).map
      (fun p => { p with blog_id := blog.id })
    Except.ok
      { added := added,
        etag := match feed.etag with
          | some e => some e
          | none => blog.etag,
        modified := match feed.modified with
          | some m => some m
          | none => blog.modified }

def bloggerW : Blogger := { id := 1, name := "alice", start_date := 0 }

def blogW : Blog :=
  { id := 1, blogger_id := 1, title := "blog", page_url := "p",
    feed_url := "f", etag := none, modified := none }

def fooP : Post :=
  { blog_id := 1, timestamp := 10, counts_for := none, title := "Foo",
    summary := "s", page_url := "u1" }

def barP : Post :=
  { blog_id := 1, timestamp := 10, counts_for := none, title := "Bar",
    summary := "s", page_url := "u2" }

def entryFoo : FeedEntry :=
  { title := some "Foo", summary := some "s", link := some "u1",
    published := some 10, created := none, updated := none }

def entryBar : FeedEntry :=
  { title := some "Bar", summary := some "s", link := some "u2",
    published := some 10, created := none, updated := none }

def storeC3 : Store :=
  { posts := [fooP, barP], blogs := [blogW], bloggers := [bloggerW] }

def feedC3 : FetchedFeed :=
  { status := none, entries := [entryBar, entryFoo], etag := none,
    modified := none }

def storeC9 : Store :=
  { posts := [fooP], blogs := [blogW], bloggers := [bloggerW] }

def feedC9 : FetchedFeed :=
  { status := none, entries := [entryFoo, entryBar], etag := none,
    modified := none }

def barP0 : Post :=
  { blog_id := 0, timestamp := 10, counts_for := none, title := "Bar",
    summary := "s", page_url := "u2" }

/-- C5 counterexample fixtures -/
def entryOld : FeedEntry :=
  { title := some "Old", summary := some "s", link := some "u3",
    published := some 1, created := none, updated := none }

def entryNewer : FeedEntry :=
  { title := some "New", summary := some "s", link := some "u4",
    published := some 8, created := none, updated := none }

def storeE : Store :=
  { posts := [], blogs := [blogW], bloggers := [bloggerW] }

def feedC5 : FetchedFeed :=
  { status := none, entries := [entryOld, entryNewer], etag := none,
    modified := none }

def entryNoDate : FeedEntry :=
  { title := some "NoDate", summary := some "s", link := some "u5",
    published := none, created := none, updated := none }

def feedC4 : FetchedFeed :=
  { status := none, entries := [entryOld, entryNoDate], etag := none,
    modified := none }

def oldP0 : Post :=
  { blog_id := 0, timestamp := 1, counts_for := none, title := "Old",
    summary := "s", page_url := "u3" }

def entryNoTitle : FeedEntry :=
  { title := none, summary := some "s", link := some "u6",
    published := some 3, created := none, updated := none }

def feedC10 : FetchedFeed :=
  { status := none, entries := [entryOld, entryNoTitle], etag := none,
    modified := none }

def pExisting : Post :=
  { blog_id := 1, timestamp := 20, counts_for := some 20, title := "P0",
    summary := "s", page_url := "u0" }

def postW : Post :=
  { blog_id := 1, timestamp := 20, counts_for := none, title := "W",
    summary := "s", page_url := "uw" }

def storeW : Store :=
  { posts := [pExisting], blogs := [blogW], bloggers := [bloggerW] }

def postC8 : Post :=
  { blog_id := 1, timestamp := 20, counts_for := some 13, title := "c8",
    summary := "s", page_url := "u8" }

def newP8 : Post :=
  { blog_id := 1, timestamp := 8, counts_for := none, title := "New",
    summary := "s", page_url := "u4" }

def oldP1 : Post :=
  { blog_id := 1, timestamp := 1, counts_for := none, title := "Old",
    summary := "s", page_url := "u3" }

def resC5 : SyncResult :=
  { added := [newP8, oldP1], etag := none, modified := none }

def feed304 : FetchedFeed :=
  { status := some 304, entries := [], etag := none, modified := none }

def fooP0 : Post :=
  { blog_id := 0, timestamp := 10, counts_for := none, title := "Foo",
    summary := "s", page_url := "u1" }

def resC9 : SyncResult := { added := [], etag := none, modified := none }

def feedW10 : FetchedFeed :=
  { status := none, entries := [entryNewer], etag := none,
    modified := none }

def newP8c : Post :=
  { blog_id := 0, timestamp := 8, counts_for := none, title := "New",
    summary := "s", page_url := "u4" }

def resW10 : SyncResult :=
  { added := [newP8], etag := none, modified := none }

theorem roundsFrom_mem {oldest round r : Int} (h : r ∈ roundsFrom oldest round) :
    oldest ≤ r ∧ r ≤ round := by
  induction round using roundsFrom.induct oldest with
  | case1 x hle ih =>
    rw [roundsFrom] at h
    simp only [hle, dite_true] at h
    rcases List.mem_cons.mp h with rfl | hmem
    · exact ⟨hle, le_refl r⟩
    · have := ih hmem
      have h7 : (0:Int) < ROUND_LEN := by simp [ROUND_LEN]
      exact ⟨this.1, by omega⟩
  | case2 x hle =>
    rw [roundsFrom] at h
    simp [hle] at h

theorem assignLoop_eq_find (dates : List Int) (oldest round : Int) :
    assignLoop dates oldest round =
      (roundsFrom oldest round).find? (fun r => decide (r ∉ dates)) := by
  induction round using assignLoop.induct dates oldest with
  | case1 x hle hmem ih =>
    rw [assignLoop, roundsFrom]
    simp only [hle, dite_true, hmem, if_true]
    rw [List.find?_cons_of_neg]
    · exact ih
    · simp [hmem]
  | case2 x hle hmem =>
    rw [assignLoop, roundsFrom]
    simp only [hle, dite_true, hmem, if_false]
    rw [List.find?_cons_of_pos]
    simp [hmem]
  | case3 x hle =>
    rw [assignLoop, roundsFrom]
    simp [hle]

theorem assignLoop_some {dates : List Int} {oldest round r : Int}
    (h : assignLoop dates oldest round = some r) :
    oldest ≤ r ∧ r ≤ round ∧ r ∉ dates := by
  rw [assignLoop_eq_find] at h
  have hmem := List.mem_of_find?_eq_some h
  have hpred := List.find?_some h
  have hb := roundsFrom_mem hmem
  refine ⟨hb.1, hb.2, ?_⟩
  simpa using hpred

theorem find?_congr {α : Type} (l : List α) (p q : α → Bool)
    (h : ∀ x ∈ l, p x = q x) : l.find? p = l.find? q := by
  induction l with
  | nil => rfl
  | cons a l ih =>
    have ha := h a (List.mem_cons_self a l)
    by_cases hp : p a = true
    · rw [List.find?_cons_of_pos _ hp, List.find?_cons_of_pos _ (ha ▸ hp)]
    · rw [List.find?_cons_of_neg _ hp, List.find?_cons_of_neg _ (ha ▸ hp)]
      exact ih (fun x hx => h x (List.mem_cons_of_mem a hx))

theorem mem_assignedRounds {posts : List Post} {blogs : List Blog}
    {bid : Nat} {r : Int} :
    r ∈ assignedRounds posts blogs bid ↔
      ∃ p, p ∈ posts ∧ ownedBy blogs p bid = true ∧ p.counts_for = some r := by
  simp only [assignedRounds, List.mem_filterMap]
  constructor
  · rintro ⟨p, hp, he⟩
    by_cases how : ownedBy blogs p bid = true
    · rw [if_pos how] at he
      exact ⟨p, hp, how, he⟩
    · rw [if_neg how] at he
      exact absurd he (by simp)
  · rintro ⟨p, hp, how, hc⟩
    exact ⟨p, hp, by rw [if_pos how]; exact hc⟩

theorem mem_claimed_dates {posts : List Post} {blogs : List Blog}
    {bid : Nat} {lo hi d : Int} :
    d ∈ claimed_dates posts blogs bid lo hi ↔
      ∃ p, p ∈ posts ∧ p.counts_for = some d ∧ lo ≤ d ∧ d ≤ hi ∧
        ownedBy blogs p bid = true := by
  simp only [claimed_dates, List.mem_filterMap]
  constructor
  · rintro ⟨p, hp, he⟩
    rcases hcf : p.counts_for with _ | d0
    · rw [hcf] at he; exact absurd he (by simp)
    · rw [hcf] at he
      dsimp only at he
      by_cases hcond : lo ≤ d0 ∧ d0 ≤ hi ∧ ownedBy blogs p bid = true
      · rw [if_pos hcond] at he
        have : d0 = d := by simpa using he
        subst this
        exact ⟨p, hp, hcf, hcond.1, hcond.2.1, hcond.2.2⟩
      · rw [if_neg hcond] at he
        exact absurd he (by simp)
  · rintro ⟨p, hp, hcf, hlo, hhi, how⟩
    refine ⟨p, hp, ?_⟩
    rw [hcf]
    dsimp only
    rw [if_pos ⟨hlo, hhi, how⟩]

theorem claimed_mem_iff_assigned {posts : List Post} {blogs : List Blog}
    {bid : Nat} {lo hi r : Int} (hlo : lo ≤ r) (hhi : r ≤ hi) :
    r ∈ claimed_dates posts blogs bid lo hi ↔
      r ∈ assignedRounds posts blogs bid := by
  rw [mem_claimed_dates, mem_assignedRounds]
  constructor
  · rintro ⟨p, hp, hcf, _, _, how⟩
    exact ⟨p, hp, how, hcf⟩
  · rintro ⟨p, hp, how, hcf⟩
    exact ⟨p, hp, hcf, hlo, hhi, how⟩

theorem findBlog_eq {blogs : List Blog} {bid : Nat} {b : Blog}
    (h : findBlog blogs bid = some b) : b ∈ blogs ∧ b.id = bid := by
  refine ⟨List.mem_of_find?_eq_some h, ?_⟩
  have := List.find?_some h
  simpa using this

theorem findBlogger_eq {bloggers : List Blogger} {bid : Nat} {g : Blogger}
    (h : findBlogger bloggers bid = some g) : g ∈ bloggers ∧ g.id = bid := by
  refine ⟨List.mem_of_find?_eq_some h, ?_⟩
  have := List.find?_some h
  simpa using this

theorem ownedBy_iff {blogs : List Blog} {p : Post} {bid : Nat} :
    ownedBy blogs p bid = true ↔
      ∃ b, b ∈ blogs ∧ b.id = p.blog_id ∧ b.blogger_id = bid := by
  simp [ownedBy, List.any_eq_true, Bool.and_eq_true, beq_iff_eq]

theorem blogId_inj {blogs : List Blog} (h : (blogs.map Blog.id).Nodup)
    {b1 b2 : Blog} (h1 : b1 ∈ blogs) (h2 : b2 ∈ blogs)
    (he : b1.id = b2.id) : b1 = b2 :=
  List.inj_on_of_nodup_map h h1 h2 he

theorem assign_round_eq (store : Store) (post : Post) :
    assign_round store post =
      match findBlog store.blogs post.blog_id with
      | none => post
      | some blog =>
        match findBlogger store.bloggers blog.blogger_id with
        | none => post
        | some blogger =>
          match assignLoop
              (claimed_dates store.posts store.blogs blogger.id
                (max (duedate post.timestamp -
                      ROUND_LEN * (DEBT_PER_POST / LATE_PENALTY))
                  (duedate blogger.start_date))
                (duedate post.timestamp))
              (max (duedate post.timestamp -
                    ROUND_LEN * (DEBT_PER_POST / LATE_PENALTY))
                (duedate blogger.start_date))
              (duedate post.timestamp) with
          | some r => { post with counts_for := some r }
          | none => post := rfl

theorem assign_round_blog_id (store : Store) (post : Post) :
    (assign_round store post).blog_id = post.blog_id := by
  unfold assign_round
  split
  · rfl
  · split
    · rfl
    · dsimp only
      split
      · rfl
      · rfl

theorem assign_round_some {store : Store} {post : Post} {r : Int}
    (hnone : post.counts_for = none)
    (hr : (assign_round store post).counts_for = some r) :
    ∃ blog blogger,
      findBlog store.blogs post.blog_id = some blog ∧
      findBlogger store.bloggers blog.blogger_id = some blogger ∧
      assignLoop
        (claimed_dates store.posts store.blogs blogger.id
          (max (duedate post.timestamp -
                ROUND_LEN * (DEBT_PER_POST / LATE_PENALTY))
            (duedate blogger.start_date))
          (duedate post.timestamp))
        (max (duedate post.timestamp -
              ROUND_LEN * (DEBT_PER_POST / LATE_PENALTY))
          (duedate blogger.start_date))
        (duedate post.timestamp) = some r := by
  rcases hfb : findBlog store.blogs post.blog_id with _ | blog
  · simp only [assign_round_eq, hfb, hnone] at hr
    exact absurd hr (by simp)
  · rcases hfg : findBlogger store.bloggers blog.blogger_id with _ | blogger
    · simp only [assign_round_eq, hfb, hfg, hnone] at hr
      exact absurd hr (by simp)
    · rcases hloop : assignLoop
          (claimed_dates store.posts store.blogs blogger.id
            (max (duedate post.timestamp -
                  ROUND_LEN * (DEBT_PER_POST / LATE_PENALTY))
              (duedate blogger.start_date))
            (duedate post.timestamp))
          (max (duedate post.timestamp -
                ROUND_LEN * (DEBT_PER_POST / LATE_PENALTY))
            (duedate blogger.start_date))
          (duedate post.timestamp) with _ | r0
      · simp only [assign_round_eq, hfb, hfg, hloop, hnone] at hr
        exact absurd hr (by simp)
      · simp only [assign_round_eq, hfb, hfg, hloop] at hr
        have hr0 : r0 = r := by simpa using hr
        subst hr0
        exact ⟨blog, blogger, rfl, hfg, hloop⟩

/-- Claim C1 (exclusivity): assigning a round to a new post preserves the
invariant that, for any participant, at most one post (across all of that
participant's blogs) has any given assigned round.  The claimed-rounds query
spans every blog of the participant (`ownedBy` ranges over all blog rows with
the participant's id), so the freshly assigned round collides with no post of
the participant, on any feed. -/
theorem C1_exclusivity_preserved (store : Store) (post : Post) (bid : Nat)
    (hids : (store.blogs.map Blog.id).Nodup)
    (hnone : post.counts_for = none)
    (hnd : (assignedRounds store.posts store.blogs bid).Nodup) :
    (assignedRounds (store.posts ++ [assign_round store post])
      store.blogs bid).Nodup := by
  set q := assign_round store post with hq
  rw [assignedRounds, List.filterMap_append]
  rcases how : ownedBy store.blogs q bid with _ | _
  · simp only [List.filterMap, how]
    simpa [assignedRounds] using hnd
  · rcases hcf : q.counts_for with _ | r
    · simp only [List.filterMap, how, hcf]
      simpa [assignedRounds] using hnd
    · have hilist : List.filterMap
          (fun p => if ownedBy store.blogs p bid = true then p.counts_for
            else none) [q] = [r] := by
        simp [List.filterMap, how, hcf]
      rw [hilist]
      have hrnotin : r ∉ assignedRounds store.posts store.blogs bid := by
        obtain ⟨blog, blogger, hfb, hfg, hloop⟩ := assign_round_some hnone hcf
        have hbounds := assignLoop_some hloop
        -- identify bid with blogger.id
        have hqblog : q.blog_id = post.blog_id := assign_round_blog_id store post
        obtain ⟨b, hbmem, hbid, hbbid⟩ := ownedBy_iff.mp how
        obtain ⟨hblogmem, hblogid⟩ := findBlog_eq hfb
        have hbe : b = blog := blogId_inj hids hbmem hblogmem
          (by rw [hbid, hqblog, hblogid])
        obtain ⟨_, hgid⟩ := findBlogger_eq hfg
        have hbidval : bid = blogger.id := by
          rw [hgid, ← hbbid, hbe]
        intro hmem
        rw [hbidval] at hmem
        have hin : r ∈ claimed_dates store.posts store.blogs blogger.id
            (max (duedate post.timestamp -
               ROUND_LEN * (DEBT_PER_POST / LATE_PENALTY))
              (duedate blogger.start_date))
            (duedate post.timestamp) :=
          (claimed_mem_iff_assigned hbounds.1 hbounds.2.1).mpr hmem
        exact hbounds.2.2 hin
      rw [List.nodup_append]
      refine ⟨by simpa [assignedRounds] using hnd, List.nodup_singleton r, ?_⟩
      intro x hx hx1
      have : x = r := by simpa using hx1
      subst this
      exact hrnotin (by simpa [assignedRounds] using hx)

/-- Claim C2 (round assignment algorithm): for a newly stored post,
`assign_round` yields exactly the first round not already claimed by the
participant, among the rounds stepping back one round length at a time from
`duedate(post.timestamp)` down to
`max (duedate(post.timestamp) - ROUND_LEN * (DEBT_PER_POST / LATE_PENALTY))
(duedate(blogger.start_date))`; when every round in that window is claimed
the assigned round is left unset (both sides are `none`). -/
theorem C2_assignment_algorithm (store : Store) (post : Post)
    (blog : Blog) (blogger : Blogger)
    (hfb : findBlog store.blogs post.blog_id = some blog)
    (hfg : findBlogger store.bloggers blog.blogger_id = some blogger)
    (hnone : post.counts_for = none) :
    (assign_round store post).counts_for =
      (roundsFrom
        (max (duedate post.timestamp -
              ROUND_LEN * (DEBT_PER_POST / LATE_PENALTY))
          (duedate blogger.start_date))
        (duedate post.timestamp)).find?
        (fun r =>
          decide (r ∉ assignedRounds store.posts store.blogs blogger.id)) := by
  have hcongr :
      (roundsFrom
        (max (duedate post.timestamp -
              ROUND_LEN * (DEBT_PER_POST / LATE_PENALTY))
          (duedate blogger.start_date))
        (duedate post.timestamp)).find?
        (fun r => decide (r ∉ claimed_dates store.posts store.blogs blogger.id
          (max (duedate post.timestamp -
                ROUND_LEN * (DEBT_PER_POST / LATE_PENALTY))
            (duedate blogger.start_date))
          (duedate post.timestamp))) =
      (roundsFrom
        (max (duedate post.timestamp -
              ROUND_LEN * (DEBT_PER_POST / LATE_PENALTY))
          (duedate blogger.start_date))
        (duedate post.timestamp)).find?
        (fun r =>
          decide (r ∉ assignedRounds store.posts store.blogs blogger.id)) := by
    apply find?_congr
    intro x hx
    have hb := roundsFrom_mem hx
    rw [decide_eq_decide]
    constructor
    · intro hnot hmem
      exact hnot ((claimed_mem_iff_assigned hb.1 hb.2).mpr hmem)
    · intro hnot hmem
      exact hnot ((claimed_mem_iff_assigned hb.1 hb.2).mp hmem)
  rw [← hcongr]
  simp only [assign_round_eq, hfb, hfg]
  rw [assignLoop_eq_find]
  rcases hfind : (roundsFrom
      (max (duedate post.timestamp -
            ROUND_LEN * (DEBT_PER_POST / LATE_PENALTY))
        (duedate blogger.start_date))
      (duedate post.timestamp)).find?
      (fun r => decide (r ∉ claimed_dates store.posts store.blogs blogger.id
        (max (duedate post.timestamp -
              ROUND_LEN * (DEBT_PER_POST / LATE_PENALTY))
          (duedate blogger.start_date))
        (duedate post.timestamp))) with _ | r
  · simpa using hnone
  · rfl

/-- Claim C7 (assigned-round bounds): any round assigned by `assign_round`
is at most the round boundary of the post's own timestamp, at least the
participant's enrollment round boundary, and no earlier than
`duedate(post.timestamp) - ROUND_LEN * (DEBT_PER_POST / LATE_PENALTY)`. -/
theorem C7_assigned_round_bounds (store : Store) (post : Post)
    (blog : Blog) (blogger : Blogger) (r : Int)
    (hfb : findBlog store.blogs post.blog_id = some blog)
    (hfg : findBlogger store.bloggers blog.blogger_id = some blogger)
    (hnone : post.counts_for = none)
    (hr : (assign_round store post).counts_for = some r) :
    r ≤ duedate post.timestamp ∧
    duedate blogger.start_date ≤ r ∧
    duedate post.timestamp -
      ROUND_LEN * (DEBT_PER_POST / LATE_PENALTY) ≤ r := by
  obtain ⟨blog1, blogger1, hfb1, hfg1, hloop⟩ := assign_round_some hnone hr
  have hb1 : blog1 = blog := by rw [hfb1] at hfb; simpa using hfb
  subst hb1
  have hg1 : blogger1 = blogger := by rw [hfg1] at hfg; simpa using hfg
  subst hg1
  have hbounds := assignLoop_some hloop
  have hmax := hbounds.1
  rw [max_le_iff] at hmax
  exact ⟨hbounds.2.1, hmax.2, by linarith [hmax.1]⟩

/-- Claim C8 (lateness derivation): `rounds_late` is `none` exactly when the
post has no assigned round; otherwise it returns the ceiling of
`(duedate(post.timestamp) - assigned) / ROUND_LEN`, which is non-negative
whenever the assigned round does not exceed the natural round; a post
assigned its natural round gets 0 and a post assigned k rounds earlier
gets k. -/
theorem C8_rounds_late_contract (post : Post) :
    (rounds_late post = none ↔ post.counts_for = none) ∧
    (∀ c : Int, post.counts_for = some c →
      rounds_late post =
        some (divide_timedelta (duedate post.timestamp - c) ROUND_LEN) ∧
      (c ≤ duedate post.timestamp →
        0 ≤ divide_timedelta (duedate post.timestamp - c) ROUND_LEN)) ∧
    (post.counts_for = some (duedate post.timestamp) →
      rounds_late post = some 0) ∧
    (∀ k : Int, 0 ≤ k →
      post.counts_for = some (duedate post.timestamp - ROUND_LEN * k) →
      rounds_late post = some k) := by
  refine ⟨?_, ?_, ?_, ?_⟩
  · unfold rounds_late
    rcases post.counts_for with _ | c <;> simp
  · intro c hc
    unfold rounds_late
    rw [hc]
    refine ⟨rfl, ?_⟩
    intro hle
    unfold divide_timedelta
    simp only [ROUND_LEN]
    omega
  · intro hc
    unfold rounds_late
    rw [hc]
    unfold divide_timedelta
    simp only [ROUND_LEN]
    congr 1
    omega
  · intro k hk hc
    unfold rounds_late
    rw [hc]
    unfold divide_timedelta
    simp only [ROUND_LEN]
    congr 1
    omega

theorem scanNew_none (l : List Post) : scanNew none l = l := by
  induction l with
  | nil => rfl
  | cons p ps ih => simp [scanNew, ih]

theorem scanNew_sublist (lp : Option Post) (l : List Post) :
    (scanNew lp l).Sublist l := by
  induction l with
  | nil => simp [scanNew]
  | cons p ps ih =>
    rcases lp with _ | lpost
    · simpa [scanNew] using ih
    · rw [scanNew]
      by_cases h1 : p.timestamp < lpost.timestamp
      · simp [h1]
      · rw [if_neg h1]
        by_cases h2 : p.timestamp = lpost.timestamp ∧ p.title = lpost.title
        · simp [h2]
        · rw [if_neg h2]
          exact List.Sublist.cons₂ p ih

theorem scanNew_eq_takeWhile (lp : Post) (l : List Post) :
    scanNew (some lp) l =
      l.takeWhile (fun p => !(decide (p.timestamp < lp.timestamp) ||
        (decide (p.timestamp = lp.timestamp) &&
         decide (p.title = lp.title)))) := by
  induction l with
  | nil => rfl
  | cons p ps ih =>
    rw [scanNew, List.takeWhile_cons]
    by_cases h1 : p.timestamp < lp.timestamp
    · simp [h1]
    · by_cases h2 : p.timestamp = lp.timestamp ∧ p.title = lp.title
      · rw [if_neg h1, if_pos h2, if_neg (by simp [h1, h2.1, h2.2])]
      · have hpred : (!(decide (p.timestamp < lp.timestamp) ||
            (decide (p.timestamp = lp.timestamp) &&
             decide (p.title = lp.title)))) = true := by
          rcases Decidable.not_and_iff_or_not.mp h2 with h | h <;> simp [h1, h]
        rw [if_neg h1, if_neg h2, if_pos hpred, ih]

theorem mem_insertAsc {p x : Post} {l : List Post} :
    x ∈ insertAsc p l ↔ x = p ∨ x ∈ l := by
  induction l with
  | nil => simp [insertAsc]
  | cons q qs ih =>
    rw [insertAsc]
    by_cases hlt : p.timestamp < q.timestamp
    · rw [if_pos hlt]
      simp
    · rw [if_neg hlt]
      simp [ih]
      tauto

theorem insertAsc_pairwise {l : List Post}
    (h : l.Pairwise (fun a b => a.timestamp ≤ b.timestamp)) (p : Post) :
    (insertAsc p l).Pairwise (fun a b => a.timestamp ≤ b.timestamp) := by
  induction l with
  | nil => simp [insertAsc]
  | cons q qs ih =>
    rw [insertAsc]
    rcases List.pairwise_cons.mp h with ⟨hq, hqs⟩
    by_cases hlt : p.timestamp < q.timestamp
    · rw [if_pos hlt]
      refine List.pairwise_cons.mpr ⟨?_, h⟩
      intro x hx
      rcases List.mem_cons.mp hx with rfl | hx
      · exact le_of_lt hlt
      · exact le_trans (le_of_lt hlt) (hq x hx)
    · rw [if_neg hlt]
      refine List.pairwise_cons.mpr ⟨?_, ih hqs⟩
      intro x hx
      rcases mem_insertAsc.mp hx with rfl | hx2
      · exact le_of_not_lt hlt
      · exact hq x hx2

theorem sortAsc_pairwise (l : List Post) :
    (sortAsc l).Pairwise (fun a b => a.timestamp ≤ b.timestamp) := by
  induction l with
  | nil => simp [sortAsc]
  | cons p ps ih => exact insertAsc_pairwise ih p

theorem mapMalformed_error_of_mem {es : List FeedEntry} {e : FeedEntry}
    (he : e ∈ es) (hm : ∃ msg, Post.from_feed_entry e = Except.error msg) :
    ∃ msg, mapMalformed es = Except.error msg := by
  induction es with
  | nil => simp at he
  | cons a as ih =>
    rw [mapMalformed]
    rcases List.mem_cons.mp he with rfl | he2
    · obtain ⟨msg, hmsg⟩ := hm
      rw [hmsg]
      exact ⟨msg, rfl⟩
    · rcases hfa : Post.from_feed_entry a with msg | p
      · exact ⟨msg, rfl⟩
      · obtain ⟨msg, hmsg⟩ := ih he2
        rw [hmsg]
        exact ⟨msg, rfl⟩

theorem from_feed_entry_error_iff (e : FeedEntry) :
    (∃ msg, Post.from_feed_entry e = Except.error msg) ↔
      (e.title = none ∨ e.summary = none ∨ e.link = none ∨
        (e.published = none ∧ e.created = none ∧ e.updated = none)) := by
  obtain ⟨t, s, l, pub, cr, up⟩ := e
  cases t <;> cases s <;> cases l <;> cases pub <;> cases cr <;> cases up <;>
    simp [Post.from_feed_entry, get_pub_date]

theorem sync_posts_ok {feed : FetchedFeed} {cands : List Post}
    (store : Store) (blog : Blog)
    (hc : mapMalformed feed.entries = Except.ok cands) :
    sync_posts store blog feed = Except.ok
      { added := (scanNew (latest_post store.posts blog.id)
          ((sortAsc cands).reverse)).map
          (fun p => { p with blog_id := blog.id }),
        etag := match feed.etag with
          | some e => some e
          | none => blog.etag,
        modified := match feed.modified with
          | some m => some m
          | none => blog.modified } := by
  rw [sync_posts]
  rw [hc]

theorem sync_posts_ok_cands {store : Store} {blog : Blog} {feed : FetchedFeed}
    {res : SyncResult} (hok : sync_posts store blog feed = Except.ok res) :
    ∃ cands, mapMalformed feed.entries = Except.ok cands := by
  rw [sync_posts] at hok
  rcases hm : mapMalformed feed.entries with msg | cands
  · rw [hm] at hok
    simp at hok
  · exact ⟨cands, rfl⟩

/-- Claim C3 (idempotence, failing evaluation): the store already contains
both same-timestamp posts of the feed (its newest upstream content), yet a
second `sync_posts` run re-inserts `barP`: the duplicate check compares the
candidate only against the single latest-post row (`fooP`), so the
equal-timestamp, differently-titled stored post `barP` is added again
instead of zero posts. -/
theorem C3_duplicate_readded :
    fooP ∈ storeC3.posts ∧ barP ∈ storeC3.posts ∧
    (sync_posts storeC3 blogW feedC3).toOption.map SyncResult.added =
      some [barP] ∧
    ([barP] : List Post) ≠ [] := by
  refine ⟨by decide, by decide, by rfl, by decide⟩

/-- Claim C9 (counterexample): the last known post is `fooP` (timestamp 10,
title Foo) and the fetch carries a genuinely new entry `entryBar` with equal
timestamp 10 and a different title, yet nothing is inserted: the scan first
meets the Foo candidate, which stops (`break`) the loop, so the
equal-timestamp different-title candidate is not inserted as new, contrary
to the claim. -/
theorem C9_counterexample :
    latest_post storeC9.posts blogW.id = some fooP ∧
    entryBar ∈ feedC9.entries ∧
    Post.from_feed_entry entryBar = Except.ok barP0 ∧
    barP0.timestamp = fooP.timestamp ∧
    barP0.title ≠ fooP.title ∧
    (sync_posts storeC9 blogW feedC9).toOption.map SyncResult.added =
      some [] := by
  exact ⟨by rfl, by decide, by rfl, by rfl, by decide, by rfl⟩

/-- Claim C9 (amended): scanning the newest-first candidate list stops at
the first candidate that is strictly older than the last known post, or has
equal timestamp and matching title; exactly the candidates before that stop
point are inserted.  Hence an equal-timestamp candidate with a different
title is inserted only when no stop-triggering candidate precedes it in the
(arbitrary tie-order) scan. -/
theorem C9_scan_stop_rule (store : Store) (blog : Blog) (feed : FetchedFeed)
    (cands : List Post) (lp : Post) (res : SyncResult)
    (hlp : latest_post store.posts blog.id = some lp)
    (hc : mapMalformed feed.entries = Except.ok cands)
    (hok : sync_posts store blog feed = Except.ok res) :
    res.added = (((sortAsc cands).reverse).takeWhile
        (fun p => !(decide (p.timestamp < lp.timestamp) ||
          (decide (p.timestamp = lp.timestamp) &&
           decide (p.title = lp.title))))).map
      (fun p => { p with blog_id := blog.id }) := by
  rw [sync_posts_ok store blog hc] at hok
  have hres := (Except.ok.injEq _ _).mp hok
  rw [← hres]
  rw [hlp, scanNew_eq_takeWhile]

/-- Claim C5 (counterexample): syncing two fresh entries with timestamps 1
and 8 inserts them in order [8, 1] — newest first, not the claimed
oldest-first order [1, 8]: no reversal to chronological order happens
before insertion. -/
theorem C5_counterexample :
    (sync_posts storeE blogW feedC5).toOption.map
        (fun r => r.added.map Post.timestamp) = some [8, 1] ∧
    ([8, 1] : List Int) ≠ [1, 8] := by
  exact ⟨by rfl, by decide⟩

/-- Claim C5 (amended): the surviving candidates are scanned and inserted in
newest-first order — the added list is sorted by non-increasing timestamp;
`sync_posts` never reverses the survivors back to oldest-first order. -/
theorem C5_insertion_newest_first (store : Store) (blog : Blog)
    (feed : FetchedFeed) (res : SyncResult)
    (hok : sync_posts store blog feed = Except.ok res) :
    res.added.Pairwise (fun a b => b.timestamp ≤ a.timestamp) := by
  obtain ⟨cands, hc⟩ := sync_posts_ok_cands hok
  rw [sync_posts_ok store blog hc] at hok
  have hres := (Except.ok.injEq _ _).mp hok
  rw [← hres]
  dsimp only
  rw [List.pairwise_map]
  have hdesc : ((sortAsc cands).reverse).Pairwise
      (fun a b => b.timestamp ≤ a.timestamp) := by
    rw [List.pairwise_reverse]
    exact sortAsc_pairwise cands
  exact (hdesc.sublist (scanNew_sublist _ _)).imp (fun h => h)

/-- Claim C4 (counterexample): a fetch holding a valid entry (`entryOld`,
which normalizes to `oldP0`) together with an entry lacking every timestamp
field makes the whole `sync_posts` run fail with the malformed-post error:
the valid sibling is not stored, contrary to the claim that a malformed
entry does not abort its siblings. -/
theorem C4_counterexample :
    entryOld ∈ feedC4.entries ∧
    Post.from_feed_entry entryOld = Except.ok oldP0 ∧
    sync_posts storeE blogW feedC4 =
      Except.error "No valid publication date in post" := by
  exact ⟨by decide, by rfl, by rfl⟩

/-- Claim C4 (amended): an entry lacking title, summary or link, or lacking
every resolvable publication timestamp, is exactly an entry on which
normalization signals the malformed-entry error; and the presence of any
such entry in a fetch makes the whole `sync_posts` run for that feed error
out (Python 2's eager `map` re-raises), so no entry of that fetch —
malformed or valid — is stored. -/
theorem C4_malformed_aborts_fetch (entry : FeedEntry) :
    ((entry.title = none ∨ entry.summary = none ∨ entry.link = none ∨
        (entry.published = none ∧ entry.created = none ∧
         entry.updated = none)) ↔
      (∃ msg, Post.from_feed_entry entry = Except.error msg)) ∧
    (∀ (store : Store) (blog : Blog) (feed : FetchedFeed),
      entry ∈ feed.entries →
      (∃ msg, Post.from_feed_entry entry = Except.error msg) →
      ∃ msg, sync_posts store blog feed = Except.error msg) := by
  constructor
  · exact (from_feed_entry_error_iff entry).symm
  · intro store blog feed hmem hfail
    obtain ⟨msg, hmsg⟩ := mapMalformed_error_of_mem hmem hfail
    refine ⟨msg, ?_⟩
    rw [sync_posts, hmsg]

/-- Claim C10 (counterexample): with no previously stored post, a fetch
holding a successfully normalizable entry (`entryOld`) next to an entry with
no title makes `sync_posts` error out, inserting nothing — so it is not the
case that every successfully normalized candidate is inserted. -/
theorem C10_counterexample :
    latest_post storeE.posts blogW.id = none ∧
    Post.from_feed_entry entryOld = Except.ok oldP0 ∧
    sync_posts storeE blogW feedC10 = Except.error "Post has no title" := by
  exact ⟨by rfl, by rfl, by rfl⟩

/-- Claim C10 (amended): on a first sync (no stored post for the feed) no
duplicate or stop check is performed and, provided every entry of the fetch
normalizes successfully, every candidate is inserted (in newest-first
order). -/
theorem C10_first_sync_inserts_all (store : Store) (blog : Blog)
    (feed : FetchedFeed) (cands : List Post) (res : SyncResult)
    (hfirst : latest_post store.posts blog.id = none)
    (hc : mapMalformed feed.entries = Except.ok cands)
    (hok : sync_posts store blog feed = Except.ok res) :
    res.added = ((sortAsc cands).reverse).map
      (fun p => { p with blog_id := blog.id }) := by
  rw [sync_posts_ok store blog hc] at hok
  have hres := (Except.ok.injEq _ _).mp hok
  rw [← hres]
  rw [hfirst, scanNew_none]

/-- Claim C6 (not-modified short-circuit): when the upstream source reports
HTTP 304 the parsed feed carries no entries (the conditional-fetch
interface), and `sync_posts` then succeeds with an empty added list: zero
posts are inserted for that feed.  (The source's 304 branch only logs; the
empty candidate list is what guarantees the behavior.) -/
theorem C6_not_modified_adds_nothing (store : Store) (blog : Blog)
    (feed : FetchedFeed)
    (h304 : feed.status = some 304)
    (hempty : feed.entries = []) :
    ∃ res, sync_posts store blog feed = Except.ok res ∧ res.added = [] := by
  refine ⟨{ added := [],
            etag := match feed.etag with
              | some e => some e
              | none => blog.etag,
            modified := match feed.modified with
              | some m => some m
              | none => blog.modified }, ?_, rfl⟩
  have hc : mapMalformed feed.entries = Except.ok [] := by
    rw [hempty]; rfl
  rw [sync_posts_ok store blog hc]
  rfl

theorem C1_witness :
    (storeW.blogs.map Blog.id).Nodup ∧
    postW.counts_for = none ∧
    (assignedRounds storeW.posts storeW.blogs 1).Nodup ∧
    (assignedRounds (storeW.posts ++ [assign_round storeW postW])
      storeW.blogs 1).Nodup :=
  ⟨by decide, by rfl, by decide,
    C1_exclusivity_preserved storeW postW 1 (by decide) (by rfl) (by decide)⟩

theorem C2_witness :
    findBlog storeW.blogs postW.blog_id = some blogW ∧
    findBlogger storeW.bloggers blogW.blogger_id = some bloggerW ∧
    postW.counts_for = none ∧
    (assign_round storeW postW).counts_for =
      (roundsFrom
        (max (duedate postW.timestamp -
              ROUND_LEN * (DEBT_PER_POST / LATE_PENALTY))
          (duedate bloggerW.start_date))
        (duedate postW.timestamp)).find?
        (fun r =>
          decide (r ∉ assignedRounds storeW.posts storeW.blogs
            bloggerW.id)) :=
  ⟨by rfl, by rfl, by rfl,
    C2_assignment_algorithm storeW postW blogW bloggerW rfl rfl rfl⟩

theorem assign_round_storeW_eval :
    (assign_round storeW postW).counts_for = some 13 := by
  have h1 : assignLoop [20] 6 20 = some 13 := by
    rw [assignLoop]
    norm_num [ROUND_LEN]
    rw [assignLoop]
    norm_num
  have hfb : findBlog storeW.blogs postW.blog_id = some blogW := rfl
  have hfg : findBlogger storeW.bloggers blogW.blogger_id = some bloggerW :=
    rfl
  have e3 : duedate postW.timestamp = 20 := rfl
  have e2 : max ((20 : Int) -
      ROUND_LEN * (DEBT_PER_POST / LATE_PENALTY))
      (duedate bloggerW.start_date) = 6 := by decide
  have e1 : claimed_dates storeW.posts storeW.blogs bloggerW.id 6 20 =
      [20] := by decide
  simp only [assign_round_eq, hfb, hfg, e1, e2, e3, h1]

theorem C7_witness :
    (assign_round storeW postW).counts_for = some 13 ∧
    ((13 : Int) ≤ duedate postW.timestamp ∧
     duedate bloggerW.start_date ≤ (13 : Int) ∧
     duedate postW.timestamp -
       ROUND_LEN * (DEBT_PER_POST / LATE_PENALTY) ≤ (13 : Int)) :=
  ⟨assign_round_storeW_eval,
    C7_assigned_round_bounds storeW postW blogW bloggerW 13 rfl rfl rfl
      assign_round_storeW_eval⟩

theorem C8_witness :
    postC8.counts_for = some 13 ∧
    rounds_late postC8 =
      some (divide_timedelta (duedate postC8.timestamp - 13) ROUND_LEN) ∧
    (13 : Int) ≤ duedate postC8.timestamp ∧
    0 ≤ divide_timedelta (duedate postC8.timestamp - 13) ROUND_LEN :=
  ⟨rfl, ((C8_rounds_late_contract postC8).2.1 13 rfl).1, by decide,
    ((C8_rounds_late_contract postC8).2.1 13 rfl).2 (by decide)⟩

theorem C4_witness :
    entryNoDate ∈ feedC4.entries ∧
    (∃ msg, Post.from_feed_entry entryNoDate = Except.error msg) ∧
    (∃ msg, sync_posts storeE blogW feedC4 = Except.error msg) :=
  ⟨by decide,
    (C4_malformed_aborts_fetch entryNoDate).1.mp
      (Or.inr (Or.inr (Or.inr ⟨rfl, rfl, rfl⟩))),
    (C4_malformed_aborts_fetch entryNoDate).2 storeE blogW feedC4 (by decide)
      ((C4_malformed_aborts_fetch entryNoDate).1.mp
        (Or.inr (Or.inr (Or.inr ⟨rfl, rfl, rfl⟩))))⟩

theorem C5_witness :
    sync_posts storeE blogW feedC5 = Except.ok resC5 ∧
    resC5.added.Pairwise (fun a b => b.timestamp ≤ a.timestamp) :=
  ⟨by rfl, C5_insertion_newest_first storeE blogW feedC5 resC5 (by rfl)⟩

theorem C6_witness :
    feed304.status = some 304 ∧ feed304.entries = [] ∧
    ∃ res, sync_posts storeE blogW feed304 = Except.ok res ∧
      res.added = [] :=
  ⟨rfl, rfl, C6_not_modified_adds_nothing storeE blogW feed304 rfl rfl⟩

theorem C9_witness :
    latest_post storeC9.posts blogW.id = some fooP ∧
    mapMalformed feedC9.entries = Except.ok [fooP0, barP0] ∧
    sync_posts storeC9 blogW feedC9 = Except.ok resC9 ∧
    resC9.added = (((sortAsc [fooP0, barP0]).reverse).takeWhile
        (fun p => !(decide (p.timestamp < fooP.timestamp) ||
          (decide (p.timestamp = fooP.timestamp) &&
           decide (p.title = fooP.title))))).map
      (fun p => { p with blog_id := blogW.id }) :=
  ⟨by rfl, by rfl, by rfl,
    C9_scan_stop_rule storeC9 blogW feedC9 [fooP0, barP0] fooP resC9
      rfl rfl rfl⟩

theorem C10_witness :
    latest_post storeE.posts blogW.id = none ∧
    mapMalformed feedW10.entries = Except.ok [newP8c] ∧
    sync_posts storeE blogW feedW10 = Except.ok resW10 ∧
    resW10.added = ((sortAsc [newP8c]).reverse).map
      (fun p => { p with blog_id := blogW.id }) :=
  ⟨by rfl, by rfl, by rfl,
    C10_first_sync_inserts_all storeE blogW feedW10 [newP8c] resW10
      rfl rfl rfl⟩
